import Mathlib

/-!
Verification of the interactive package selection and transaction engine of
`packagemanager.py` (PyPkg TUI). The Python source is shallowly embedded:
pure fragments become Lean functions, the mutation of `PackageListItem`
fields and of the TUI cursor becomes explicit state passing, and the
side-effecting collaborators (repository download, tar extraction, the
installed-package database) are abstracted as oracles whose calls are
recorded in an event trace.
-/

/-- Mirrors the `PackageAction` enum of the source. -/
inductive PackageAction where
  | NONE
  | INSTALL
  | REMOVE
  | PURGE
deriving DecidableEq, BEq, Repr

/-- Mirrors the `Package` dataclass: name, version, description,
dependencies, files (the `install_path` field is constant and unused by the
engine, so it is omitted). -/
structure Package where
  name : String
  version : String
  description : String
  dependencies : List String
  files : List String
deriving DecidableEq, Repr

/-- Mirrors the `PackageListItem` dataclass: a package plus the
`installed` flag and the pending `action`. -/
structure PackageListItem where
  package : Package
  installed : Bool
  action : PackageAction := PackageAction.NONE
deriving DecidableEq, Repr

/-! ## Catalog build (`load_packages`)

`load_packages` iterates over the repository dictionary (whose keys are the
unique package names), looks each name up in the installed database, builds
a fresh `PackageListItem` with no pending action, and sorts the list by
package name. The dictionary is embedded as a list of records whose names
are pairwise distinct; the installed database as the list of installed
names. -/

/-- The sort key order used by `self.packages.sort(key=lambda x: x.package.name)`. -/
def itemLe (a b : PackageListItem) : Prop :=
  a.package.name ≤ b.package.name

instance : DecidableRel itemLe :=
  fun a b => inferInstanceAs (Decidable (a.package.name ≤ b.package.name))

instance : IsTotal PackageListItem itemLe :=
  ⟨fun a b => le_total a.package.name b.package.name⟩

instance : IsTrans PackageListItem itemLe :=
  ⟨fun _ _ _ h1 h2 => le_trans h1 h2⟩

/-- Embeds `PackageManagerTUI.load_packages` (the catalog build): one entry
per record of `available`, `installed` looked up in the database,
`action = NONE`, sorted by name. -/
def load_packages (available : List Package) (installedNames : List String) :
    List PackageListItem :=
  List.insertionSort itemLe (available.map (fun pkg =>
    { package := pkg, installed := installedNames.contains pkg.name,
      action := PackageAction.NONE }))

/-! ## Search (`search_packages`)

Python's `query.lower() in item.package.name.lower()` is a case-insensitive
substring test; the scan runs over `enumerate(self.packages)`, i.e. from
index 0, and stops at the first match. -/

/-- Whether `p` occurs at the head of `l` (`List.take p.length l == p`). -/
def headMatch : List Char → List Char → Bool
  | [], _ => true
  | _ :: _, [] => false
  | a :: p, b :: l => a == b && headMatch p l

/-- Whether `p` occurs as a contiguous run somewhere in `l`
(Python's `p in l` on strings). -/
def strContains (p l : List Char) : Bool :=
  match l with
  | [] => headMatch p []
  | _ :: t => headMatch p (l) || strContains p t

/-- Python `s.lower()` as a character list. -/
def lowerChars (s : String) : List Char :=
  s.toList.map Char.toLower

/-- The match test of `search_packages`: case-insensitive substring of the
name or of the description. -/
def matchesQuery (query : String) (item : PackageListItem) : Bool :=
  strContains (lowerChars query) (lowerChars item.package.name) ||
  strContains (lowerChars query) (lowerChars item.package.description)

/-- Embeds the resolver loop of `search_packages`: first index (from 0)
whose entry matches, `none` when no entry matches. -/
def search_packages (pkgs : List PackageListItem) (query : String) :
    Option Nat :=
  pkgs.findIdx? (matchesQuery query)

/-- Modelled from the spec (for comparison with `search_packages`):
`findByQuery` scans forward from `startAfter + 1`, wrapping to 0, over one
full cycle of the list, and returns the first matching index. -/
def findByQuerySpec (pkgs : List PackageListItem) (query : String)
    (startAfter : Nat) : Option Nat :=
  ((List.range pkgs.length).map
    (fun k => (startAfter + 1 + k) % pkgs.length)).find?
    (fun i => match pkgs[i]? with
      | some it => matchesQuery query it
      | none => false)

/-! ## Cursor (`handle_input` navigation keys, lines 400-428)

`current_index` and `scroll_offset` are plain Python ints, so the embedding
uses `Int`: the point of interest is precisely whether they can leave their
intended ranges. `list_height` (the viewport) and the list length are
parameters. -/

/-- The cursor-moving commands of `handle_input`
(arrow keys / `k`,`j`, PgUp, PgDn, Home, End). -/
inductive CursorCmd where
  | moveUp
  | moveDown
  | pageUp
  | pageDown
  | home
  | endKey
deriving DecidableEq, Repr

/-- Mirrors `{current_index, scroll_offset}` of `PackageManagerTUI`. -/
structure CursorState where
  idx : Int
  off : Int
deriving DecidableEq, Repr

/-- Embeds the navigation branches of `handle_input`. `L` is
`len(self.packages)` and `H` is `list_height`. -/
def handle_cursor (L H : Int) (c : CursorCmd) (s : CursorState) :
    CursorState :=
  match c with
  | CursorCmd.moveUp =>
      if s.idx > 0 then
        let i := s.idx - 1
        { idx := i, off := if i < s.off then i else s.off }
      else s
  | CursorCmd.moveDown =>
      if s.idx < L - 1 then
        let i := s.idx + 1
        { idx := i, off := if i ≥ s.off + H then i - H + 1 else s.off }
      else s
  | CursorCmd.pageUp =>
      { idx := max 0 (s.idx - H), off := max 0 (s.off - H) }
  | CursorCmd.pageDown =>
      { idx := min (L - 1) (s.idx + H), off := min (L - H) (s.off + H) }
  | CursorCmd.home =>
      { idx := 0, off := 0 }
  | CursorCmd.endKey =>
      { idx := L - 1, off := max 0 (L - H) }

/-- The cursor invariant of the spec:
`0 ≤ idx < L` and `0 ≤ off ≤ max 0 (L - H)`. -/
def cursorInv (L H : Int) (s : CursorState) : Prop :=
  0 ≤ s.idx ∧ s.idx < L ∧ 0 ≤ s.off ∧ s.off ≤ max 0 (L - H)

instance (L H : Int) (s : CursorState) : Decidable (cursorInv L H s) := by
  unfold cursorInv; infer_instance

/-- Runs a sequence of cursor commands. -/
def runCursor (L H : Int) (cmds : List CursorCmd) (s : CursorState) :
    CursorState :=
  cmds.foldl (fun t c => handle_cursor L H c t) s

/-! ## Marking (`mark_for_install`, `mark_for_remove`)

Both methods act on the selected item and either mutate `item.action` or
only report a status string; the embedding returns the updated item together
with the `status_message` the method sets. -/

/-- Embeds `mark_for_install`: if the item is not installed, set
`action = INSTALL` with a confirmation message; otherwise leave the item
untouched and report that it is already installed. -/
def mark_for_install (item : PackageListItem) : PackageListItem × String :=
  if !item.installed then
    ({ item with action := PackageAction.INSTALL },
     "Marked " ++ item.package.name ++ " for installation")
  else
    (item, item.package.name ++ " is already installed")

/-- Embeds `mark_for_remove`: if the item is installed, set
`action = REMOVE` with a confirmation message; otherwise leave the item
untouched and report that it is not installed. -/
def mark_for_remove (item : PackageListItem) : PackageListItem × String :=
  if item.installed then
    ({ item with action := PackageAction.REMOVE },
     "Marked " ++ item.package.name ++ " for removal")
  else
    (item, item.package.name ++ " is not installed")

/-! ## Transaction execution (`apply_changes`, `install_package`,
`remove_package`)

The side-effecting collaborators are abstracted as oracles
`instErr remErr : String → Option String`: `none` means the step's
download/extract (resp. file removal) succeeds, `some e` means it raises an
exception whose text is `e` (caught by the `except` clause of the step).
Calls to the repository, the tar extractor and the installed database are
recorded as events so that "no side effect" is expressible. -/

/-- One recorded collaborator call (or the confirmation prompt read). -/
inductive Event where
  | confirmPrompt
  | fetch (name : String)
  | extract (name : String)
  | dbAdd (name : String)
  | deleteFiles (name : String)
  | dbRemove (name : String)
deriving DecidableEq, Repr

/-- Embeds `install_package`: on success the item becomes
`installed = true, action = NONE` with a success message and the
download/extract/db-add calls; on an exception the item is left exactly as
it was and the error message carries the package name and the cause. -/
def install_package (instErr : String → Option String)
    (item : PackageListItem) : PackageListItem × String × List Event :=
  match instErr item.package.name with
  | none =>
      ({ item with installed := true, action := PackageAction.NONE },
       "Successfully installed " ++ item.package.name,
       [Event.fetch item.package.name, Event.extract item.package.name,
        Event.dbAdd item.package.name])
  | some e =>
      (item, "Error installing " ++ item.package.name ++ ": " ++ e, [])

/-- Embeds `remove_package`: on success the item becomes
`installed = false, action = NONE` with a success message and the
file-removal/db-remove calls; on an exception the item is left exactly as
it was and the error message carries the package name and the cause. -/
def remove_package (remErr : String → Option String)
    (item : PackageListItem) : PackageListItem × String × List Event :=
  match remErr item.package.name with
  | none =>
      ({ item with installed := false, action := PackageAction.NONE },
       "Successfully removed " ++ item.package.name,
       [Event.deleteFiles item.package.name,
        Event.dbRemove item.package.name])
  | some e =>
      (item, "Error removing " ++ item.package.name ++ ": " ++ e, [])

/-- `to_install = [item for item in self.packages if item.action == INSTALL]`. -/
def to_install (pkgs : List PackageListItem) : List PackageListItem :=
  pkgs.filter (fun it => it.action == PackageAction.INSTALL)

/-- `to_remove = [item for item in self.packages if item.action == REMOVE]`. -/
def to_remove (pkgs : List PackageListItem) : List PackageListItem :=
  pkgs.filter (fun it => it.action == PackageAction.REMOVE)

/-- The outcome of `apply_changes`: the catalog entries after the batch
(`apply_changes` mutates them in place through the `to_install`/`to_remove`
references), the per-step final status messages in execution order, the
collaborator-call trace, and the status message of an early return. -/
structure ApplyResult where
  packages : List PackageListItem
  results : List String
  trace : List Event
  status : String
deriving DecidableEq, Repr

/-- The in-place effect of the batch on one catalog entry: entries marked
`INSTALL` go through `install_package`, entries marked `REMOVE` through
`remove_package`, all others are untouched. -/
def stepItem (instErr remErr : String → Option String)
    (it : PackageListItem) : PackageListItem :=
  if it.action == PackageAction.INSTALL then
    (install_package instErr it).1
  else if it.action == PackageAction.REMOVE then
    (remove_package remErr it).1
  else it

/-- Embeds `apply_changes` up to (not including) the final `load_packages`
rebuild, which is modelled separately by `load_packages_state`. If neither
set is non-empty it returns at once ("No changes to apply", no prompt); the
confirmation prompt read is the `confirmPrompt` event and `confirmKey` tells
whether the user typed `y`/`Y`; on decline it returns "Changes cancelled"
with nothing mutated; otherwise every `to_install` entry is processed in
list order, then every `to_remove` entry in list order. -/
def apply_changes (confirmKey : Bool)
    (instErr remErr : String → Option String)
    (pkgs : List PackageListItem) : ApplyResult :=
  if (to_install pkgs).isEmpty && (to_remove pkgs).isEmpty then
    { packages := pkgs, results := [], trace := [],
      status := "No changes to apply" }
  else if !confirmKey then
    { packages := pkgs, results := [], trace := [Event.confirmPrompt],
      status := "Changes cancelled" }
  else
    { packages := pkgs.map (stepItem instErr remErr),
      results :=
        (to_install pkgs).map (fun it => (install_package instErr it).2.1) ++
        (to_remove pkgs).map (fun it => (remove_package remErr it).2.1),
      trace :=
        Event.confirmPrompt ::
        ((to_install pkgs).flatMap (fun it => (install_package instErr it).2.2) ++
         (to_remove pkgs).flatMap (fun it => (remove_package remErr it).2.2)),
      status := "" }

/-! ## TUI state and catalog rebuild -/

/-- The cursor-relevant mutable state of `PackageManagerTUI`: the catalog
plus `current_index` and `scroll_offset`. -/
structure TUIState where
  packages : List PackageListItem
  current_index : Int
  scroll_offset : Int
deriving DecidableEq, Repr

/-- Embeds the effect of calling `self.load_packages()` (on the `u` key and
at the end of `apply_changes`): `self.packages` is rebuilt wholesale while
`current_index` and `scroll_offset` are not touched. -/
def load_packages_state (s : TUIState) (available : List Package)
    (installedNames : List String) : TUIState :=
  { s with packages := load_packages available installedNames }

/-- The per-entry invariant of the spec: `INSTALL` pending only on a
non-installed entry, `REMOVE`/`PURGE` pending only on an installed one. -/
def entryInv (item : PackageListItem) : Prop :=
  (item.action = PackageAction.INSTALL → item.installed = false) ∧
  (item.action = PackageAction.REMOVE ∨ item.action = PackageAction.PURGE →
    item.installed = true)

instance (item : PackageListItem) : Decidable (entryInv item) := by
  unfold entryInv; infer_instance

/-! ## Concrete sample data (used by witnesses and counterexamples) -/

/-- The fallback record of `fetch_package_list`, used as concrete test data. -/
def samplePkg : Package :=
  { name := "sl", version := "5.0.2",
    description := "Steam Locomotive - displays a steam locomotive",
    dependencies := [], files := [] }

/-- A not-yet-installed entry marked for installation. -/
def slPending : PackageListItem :=
  { package := samplePkg, installed := false, action := PackageAction.INSTALL }

/-- An installed entry with no pending action. -/
def slInstalled : PackageListItem :=
  { package := samplePkg, installed := true, action := PackageAction.NONE }

/-- Embeds the cursor effect of a successful search (the tail of
`search_packages`): on the first matching index `i`, `current_index = i`
and `scroll_offset = max(0, i - 5)`; on no match the cursor is unchanged. -/
def search_jump (pkgs : List PackageListItem) (query : String)
    (s : CursorState) : CursorState :=
  match search_packages pkgs query with
  | some i => { idx := (i : Int), off := max 0 ((i : Int) - 5) }
  | none => s

/-- A record matching the query "xray" only through its description. -/
def pkgXa : Package :=
  { name := "alpha", version := "1", description := "xray tool",
    dependencies := [], files := [] }

/-- A second record matching the query "xray" through its description. -/
def pkgXb : Package :=
  { name := "beta", version := "1", description := "another xray tool",
    dependencies := [], files := [] }

/-- A two-entry catalog in which both entries match the query "xray". -/
def catX : List PackageListItem :=
  [{ package := pkgXa, installed := false, action := PackageAction.NONE },
   { package := pkgXb, installed := false, action := PackageAction.NONE }]

/-- An entry matching no query used below ("steam" in particular). -/
def plainItem : PackageListItem :=
  { package := { name := "a", version := "1", description := "b",
                 dependencies := [], files := [] },
    installed := false, action := PackageAction.NONE }

/-- A seven-entry catalog whose only match for "steam" sits at index 6. -/
def steamCat : List PackageListItem :=
  List.replicate 6 plainItem ++ [slInstalled]

/-! ## Shared helper lemmas -/

/-- A non-empty plan makes the first guard of `apply_changes` false. -/
theorem plan_guard_false {pkgs : List PackageListItem}
    (hp : to_install pkgs ≠ [] ∨ to_remove pkgs ≠ []) :
    ((to_install pkgs).isEmpty && (to_remove pkgs).isEmpty) = false := by
  rcases hp with h | h <;> simp [List.isEmpty_iff, h]

/-- Claim C5: if the user declines the confirmation prompt of a non-empty
plan, `apply_changes` returns the "Changes cancelled" status, leaves every
entry's `installed` and `action` exactly as they were, and makes no
installer or database call (the trace holds only the prompt read). -/
theorem apply_changes_cancelled_noop (pkgs : List PackageListItem)
    (instErr remErr : String → Option String)
    (hp : to_install pkgs ≠ [] ∨ to_remove pkgs ≠ []) :
    apply_changes false instErr remErr pkgs =
      { packages := pkgs, results := [], trace := [Event.confirmPrompt],
        status := "Changes cancelled" } := by
  unfold apply_changes
  rw [plan_guard_false hp]
  simp

/-- Witness for C5 at a concrete one-entry plan. -/
theorem apply_changes_cancelled_noop_witness :
    (to_install [slPending] ≠ [] ∨ to_remove [slPending] ≠ []) ∧
    apply_changes false (fun _ => none) (fun _ => none) [slPending] =
      { packages := [slPending], results := [],
        trace := [Event.confirmPrompt], status := "Changes cancelled" } :=
  ⟨Or.inl (by decide),
   apply_changes_cancelled_noop [slPending] (fun _ => none) (fun _ => none)
     (Or.inl (by decide))⟩

/-- Claim C6: marking an already-installed entry for install (resp. a
not-installed entry for removal) leaves the entry untouched and reports the
rejection status; otherwise the mark sets `action` to `INSTALL`
(resp. `REMOVE`). -/
theorem mark_rejects_or_sets (item : PackageListItem) :
    (item.installed = true →
      mark_for_install item =
        (item, item.package.name ++ " is already installed")) ∧
    (item.installed = false →
      mark_for_install item =
        ({ item with action := PackageAction.INSTALL },
         "Marked " ++ item.package.name ++ " for installation")) ∧
    (item.installed = false →
      mark_for_remove item =
        (item, item.package.name ++ " is not installed")) ∧
    (item.installed = true →
      mark_for_remove item =
        ({ item with action := PackageAction.REMOVE },
         "Marked " ++ item.package.name ++ " for removal")) := by
  unfold mark_for_install mark_for_remove
  cases h : item.installed <;> simp

/-- Witness for C6 at a concrete installed entry. -/
theorem mark_rejects_or_sets_witness :
    mark_for_install slInstalled =
      (slInstalled, slInstalled.package.name ++ " is already installed") :=
  (mark_rejects_or_sets slInstalled).1 rfl

/-- Claim C7: every entry-mutating operation (the two marks and the two
transaction steps, the latter whether the oracle reports success or an
exception) preserves the entry invariant, and a mark that would violate it
is rejected leaving the entry untouched. -/
theorem mutate_preserves_entryInv (item : PackageListItem)
    (instErr remErr : String → Option String) (h : entryInv item) :
    entryInv (mark_for_install item).1 ∧
    entryInv (mark_for_remove item).1 ∧
    entryInv (install_package instErr item).1 ∧
    entryInv (remove_package remErr item).1 ∧
    (item.installed = true → (mark_for_install item).1 = item) ∧
    (item.installed = false → (mark_for_remove item).1 = item) := by
  obtain ⟨h1, h2⟩ := h
  unfold entryInv mark_for_install mark_for_remove install_package
    remove_package at *
  cases hi : item.installed <;>
    cases he : instErr item.package.name <;>
      cases hr : remErr item.package.name <;>
        simp_all

/-- Witness for C7 at a concrete pending-install entry. -/
theorem mutate_preserves_entryInv_witness :
    entryInv slPending ∧ entryInv (install_package (fun _ => none) slPending).1 :=
  ⟨by decide,
   (mutate_preserves_entryInv slPending (fun _ => none) (fun _ => none)
     (by decide)).2.2.1⟩

/-- Claim C8: a catalog with no pending action yields an empty plan, and on
an empty plan `apply_changes` returns at once with "No changes to apply",
an empty trace (so the confirmation prompt is never read) and the catalog
untouched, for every confirmation key and every oracle. -/
theorem no_pending_no_prompt (pkgs : List PackageListItem)
    (confirmKey : Bool) (instErr remErr : String → Option String)
    (h : ∀ it ∈ pkgs, it.action = PackageAction.NONE) :
    to_install pkgs = [] ∧ to_remove pkgs = [] ∧
    apply_changes confirmKey instErr remErr pkgs =
      { packages := pkgs, results := [], trace := [],
        status := "No changes to apply" } := by
  have h1 : to_install pkgs = [] := by
    rw [to_install, List.filter_eq_nil_iff]
    intro a ha
    rw [h a ha]
    decide
  have h2 : to_remove pkgs = [] := by
    rw [to_remove, List.filter_eq_nil_iff]
    intro a ha
    rw [h a ha]
    decide
  refine ⟨h1, h2, ?_⟩
  unfold apply_changes
  rw [h1, h2]
  simp

/-- Witness for C8 at a concrete action-free catalog. -/
theorem no_pending_no_prompt_witness :
    to_install [slInstalled] = [] ∧ to_remove [slInstalled] = [] ∧
    apply_changes true (fun _ => none) (fun _ => none) [slInstalled] =
      { packages := [slInstalled], results := [], trace := [],
        status := "No changes to apply" } :=
  no_pending_no_prompt [slInstalled] true (fun _ => none) (fun _ => none)
    (by decide)

/-- Claim C9: a confirmed non-empty plan produces one result per planned
entry, all `to_install` entries (in catalog order, being a sublist of the
catalog) before all `to_remove` entries (also in catalog order), with the
trace events in the same fixed order after the prompt read. -/
theorem apply_changes_install_before_remove (pkgs : List PackageListItem)
    (instErr remErr : String → Option String)
    (hp : to_install pkgs ≠ [] ∨ to_remove pkgs ≠ []) :
    (apply_changes true instErr remErr pkgs).results =
      (to_install pkgs).map (fun it => (install_package instErr it).2.1) ++
      (to_remove pkgs).map (fun it => (remove_package remErr it).2.1) ∧
    (apply_changes true instErr remErr pkgs).trace =
      Event.confirmPrompt ::
      ((to_install pkgs).flatMap (fun it => (install_package instErr it).2.2) ++
       (to_remove pkgs).flatMap (fun it => (remove_package remErr it).2.2)) ∧
    List.Sublist (to_install pkgs) pkgs ∧
    List.Sublist (to_remove pkgs) pkgs := by
  refine ⟨?_, ?_, List.filter_sublist pkgs, List.filter_sublist pkgs⟩ <;>
    (unfold apply_changes; rw [plan_guard_false hp]; simp)

/-- Witness for C9 at a concrete one-entry plan. -/
theorem apply_changes_install_before_remove_witness :
    (apply_changes true (fun _ => none) (fun _ => none) [slPending]).results =
      (to_install [slPending]).map
        (fun it => (install_package (fun _ => none) it).2.1) ++
      (to_remove [slPending]).map
        (fun it => (remove_package (fun _ => none) it).2.1) :=
  (apply_changes_install_before_remove [slPending] (fun _ => none)
    (fun _ => none) (Or.inl (by decide))).1

/-- Claim C10: rebuilding the catalog never touches `current_index` or
`scroll_offset`, and concretely a rebuild that shrinks the catalog below
`current_index + 1` leaves the selection pointing past the end of the new
list. -/
theorem rebuild_keeps_cursor :
    (∀ (s : TUIState) (available : List Package)
        (installedNames : List String),
      (load_packages_state s available installedNames).current_index =
        s.current_index ∧
      (load_packages_state s available installedNames).scroll_offset =
        s.scroll_offset) ∧
    (load_packages_state
        { packages := List.replicate 3 slInstalled, current_index := 2,
          scroll_offset := 1 } [samplePkg] []).packages.length = 1 ∧
    (load_packages_state
        { packages := List.replicate 3 slInstalled, current_index := 2,
          scroll_offset := 1 } [samplePkg] []).current_index = 2 ∧
    ((load_packages_state
        { packages := List.replicate 3 slInstalled, current_index := 2,
          scroll_offset := 1 } [samplePkg] []).packages.length : Int) ≤
      (load_packages_state
        { packages := List.replicate 3 slInstalled, current_index := 2,
          scroll_offset := 1 } [samplePkg] []).current_index := by
  refine ⟨fun s a i => ⟨rfl, rfl⟩, rfl, rfl, by decide⟩

/-- Counterexample to C1 as stated: a failing install step leaves the
entry's `action` at `INSTALL` — the `except` clause of `install_package`
only sets the status message, so `pendingAction` is not reset to `None`. -/
theorem failed_step_keeps_action_counterexample :
    (install_package (fun _ => some "boom") slPending).1.action =
      PackageAction.INSTALL ∧
    PackageAction.INSTALL ≠ PackageAction.NONE ∧
    (remove_package (fun _ => some "boom")
      { package := samplePkg, installed := true,
        action := PackageAction.REMOVE }).1.action = PackageAction.REMOVE := by
  decide

/-- Claim C1 as amended: a failing step leaves the entry entirely
unchanged — `installed` untouched and `action` still `INSTALL` /
`REMOVE` rather than reset to `None` — while recording an error message
that carries the package name and the exception text; and the batch never
aborts: a confirmed non-empty plan always yields one result per planned
entry, whatever the oracles report. -/
theorem failed_step_leaves_entry_and_continues
    (item : PackageListItem) (pkgs : List PackageListItem)
    (instErr remErr : String → Option String) (e1 e2 : String)
    (hi : instErr item.package.name = some e1)
    (hr : remErr item.package.name = some e2)
    (hp : to_install pkgs ≠ [] ∨ to_remove pkgs ≠ []) :
    install_package instErr item =
      (item, "Error installing " ++ item.package.name ++ ": " ++ e1, []) ∧
    remove_package remErr item =
      (item, "Error removing " ++ item.package.name ++ ": " ++ e2, []) ∧
    (apply_changes true instErr remErr pkgs).results.length =
      (to_install pkgs).length + (to_remove pkgs).length := by
  refine ⟨?_, ?_, ?_⟩
  · unfold install_package
    rw [hi]
  · unfold remove_package
    rw [hr]
  · unfold apply_changes
    rw [plan_guard_false hp]
    simp

/-- Witness for the amended C1 at a concrete always-failing oracle. -/
theorem failed_step_leaves_entry_and_continues_witness :
    ((fun _ : String => some "boom") slPending.package.name = some "boom") ∧
    (to_install [slPending] ≠ [] ∨ to_remove [slPending] ≠ []) ∧
    (apply_changes true (fun _ => some "boom") (fun _ => some "oops")
        [slPending]).results.length =
      (to_install [slPending]).length + (to_remove [slPending]).length :=
  ⟨rfl, Or.inl (by decide),
   (failed_step_leaves_entry_and_continues slPending [slPending]
     (fun _ => some "boom") (fun _ => some "oops") "boom" "oops" rfl rfl
     (Or.inl (by decide))).2.2⟩


/-- Counterexample to C3 as stated: `load_packages` iterates only over the
source records, so a name that is installed locally but absent from the
source yields no catalog entry at all. -/
theorem load_packages_drops_installed_only_counterexample :
    load_packages [] ["foo"] = [] ∧ "foo" ∈ (["foo"] : List String) :=
  ⟨rfl, by decide⟩

/-- Claim C3 as amended: the catalog built by `load_packages` has exactly
the source names — installed-only names absent from the source are dropped,
not synthesized — each entry carrying the source metadata, the installed
flag looked up in the ledger and no pending action, and its entries are
strictly sorted ascending by name (hence duplicate-free), provided the
source names are unique (as dictionary keys are). -/
theorem load_packages_sorted_source_only
    (available : List Package) (installedNames : List String)
    (hnd : (available.map Package.name).Nodup) :
    ((load_packages available installedNames).map
        (fun it => it.package.name)).Sorted (· < ·) ∧
    (∀ n : String,
      (∃ it, it ∈ load_packages available installedNames ∧
        it.package.name = n) ↔ n ∈ available.map Package.name) ∧
    (∀ it, it ∈ load_packages available installedNames →
      it.package ∈ available ∧
      it.installed = installedNames.contains it.package.name ∧
      it.action = PackageAction.NONE) := by
  have hperm : List.Perm (load_packages available installedNames)
      (available.map (fun pkg =>
        ({ package := pkg, installed := installedNames.contains pkg.name,
           action := PackageAction.NONE } : PackageListItem))) :=
    List.perm_insertionSort itemLe _
  have hsorted : (load_packages available installedNames).Sorted itemLe :=
    List.sorted_insertionSort itemLe _
  have h1 : ((load_packages available installedNames).map
      (fun it => it.package.name)).Pairwise (· ≤ ·) :=
    List.pairwise_map.mpr hsorted
  have h2 : List.Perm
      ((load_packages available installedNames).map
        (fun it => it.package.name))
      (available.map Package.name) := by
    have h := hperm.map (fun it => it.package.name)
    simpa [List.map_map, Function.comp] using h
  have h3 : ((load_packages available installedNames).map
      (fun it => it.package.name)).Nodup := h2.nodup_iff.mpr hnd
  refine ⟨List.Sorted.lt_of_le h1 h3, ?_, ?_⟩
  · intro n
    constructor
    · rintro ⟨it, hit, rfl⟩
      rcases List.mem_map.mp (hperm.mem_iff.mp hit) with ⟨pkg, hpkg, rfl⟩
      exact List.mem_map.mpr ⟨pkg, hpkg, rfl⟩
    · intro hn
      rcases List.mem_map.mp hn with ⟨pkg, hpkg, rfl⟩
      exact ⟨{ package := pkg,
               installed := installedNames.contains pkg.name,
               action := PackageAction.NONE },
             hperm.mem_iff.mpr (List.mem_map.mpr ⟨pkg, hpkg, rfl⟩), rfl⟩
  · intro it hit
    rcases List.mem_map.mp (hperm.mem_iff.mp hit) with ⟨pkg, hpkg, rfl⟩
    exact ⟨hpkg, rfl, rfl⟩

/-- Witness for the amended C3 at a concrete one-record source. -/
theorem load_packages_sorted_source_only_witness :
    ([samplePkg].map Package.name).Nodup ∧
    (((load_packages [samplePkg] []).map
        (fun it => it.package.name)).Sorted (· < ·) ∧
     (∀ n : String,
       (∃ it, it ∈ load_packages [samplePkg] [] ∧
         it.package.name = n) ↔ n ∈ [samplePkg].map Package.name) ∧
     (∀ it, it ∈ load_packages [samplePkg] [] →
       it.package ∈ [samplePkg] ∧
       it.installed = ([] : List String).contains it.package.name ∧
       it.action = PackageAction.NONE)) :=
  ⟨by decide, load_packages_sorted_source_only [samplePkg] [] (by decide)⟩

/-- Counterexample to C4 as stated: with the selection on entry 0 of a
catalog whose entries 0 and 1 both match, scanning forward from the entry
after the selection would find index 1, but `search_packages` restarts from
index 0 and returns 0 — the scan ignores the current selection. -/
theorem search_ignores_selection_counterexample :
    search_packages catX "xray" = some 0 ∧
    findByQuerySpec catX "xray" 0 = some 1 ∧
    search_packages catX "xray" ≠ findByQuerySpec catX "xray" 0 := by
  decide

/-- Claim C4 as amended: the resolver performs a case-insensitive substring
match of the query against each entry's name or description, but always
scans from index 0 in catalog order, independent of the current selection:
it returns the first matching index of the whole list, and no match exactly
when no entry of the list matches. -/
theorem search_packages_first_match (pkgs : List PackageListItem)
    (query : String) :
    (∀ i : Nat, search_packages pkgs query = some i ↔
      ∃ h : i < pkgs.length,
        matchesQuery query (pkgs.get ⟨i, h⟩) = true ∧
        ∀ j : Fin pkgs.length, (j : Nat) < i →
          matchesQuery query (pkgs.get j) = false) ∧
    (search_packages pkgs query = none ↔
      ∀ it ∈ pkgs, matchesQuery query it = false) := by
  constructor
  · intro i
    rw [search_packages, List.findIdx?_eq_some_iff_getElem]
    constructor
    · rintro ⟨h, hp, hall⟩
      refine ⟨h, by simpa using hp, fun j hj => ?_⟩
      simpa using hall j hj
    · rintro ⟨h, hp, hall⟩
      refine ⟨h, by simpa using hp, fun j hj => ?_⟩
      simpa using hall ⟨j, Nat.lt_trans hj h⟩ hj
  · rw [search_packages]
    exact List.findIdx?_eq_none_iff

/-- Witness for the amended C4 at the concrete catalog `catX`. -/
theorem search_packages_first_match_witness :
    ∃ h : 0 < catX.length,
      matchesQuery "xray" (catX.get ⟨0, h⟩) = true ∧
      ∀ j : Fin catX.length, (j : Nat) < 0 →
        matchesQuery "xray" (catX.get j) = false :=
  ((search_packages_first_match catX "xray").1 0).mp (by decide)

/-- Every navigation command keeps the selection index inside `[0, L)`
(for a non-empty list and positive viewport), even when the viewport is
taller than the list. -/
theorem handle_cursor_idx (L H : Int) (c : CursorCmd) (s : CursorState)
    (hH : 1 ≤ H) (hL : 1 ≤ L) (hs : cursorInv L H s) :
    0 ≤ (handle_cursor L H c s).idx ∧ (handle_cursor L H c s).idx < L := by
  obtain ⟨h1, h2, h3, h4⟩ := hs
  cases c <;>
    simp only [handle_cursor] <;>
    (try split_ifs) <;>
    (try simp) <;>
    omega

/-- Every navigation command other than `pageDown` preserves the full
cursor invariant; `pageDown` does as well once the list is at least as long
as the viewport. -/
theorem handle_cursor_inv (L H : Int) (c : CursorCmd) (s : CursorState)
    (hH : 1 ≤ H) (hL : 1 ≤ L) (hs : cursorInv L H s)
    (hc : c = CursorCmd.pageDown → H ≤ L) :
    cursorInv L H (handle_cursor L H c s) := by
  obtain ⟨h1, h2, h3, h4⟩ := hs
  cases c
  case pageDown =>
    have hHL : H ≤ L := hc rfl
    simp only [handle_cursor, cursorInv]
    (try simp)
    omega
  all_goals
    simp only [handle_cursor, cursorInv] <;>
    (try split_ifs) <;>
    (try simp) <;>
    omega

/-- Invariant preservation along whole command sequences when the viewport
fits in the list. -/
theorem runCursor_inv (L H : Int) (cmds : List CursorCmd) (s : CursorState)
    (hH : 1 ≤ H) (hHL : H ≤ L) (hs : cursorInv L H s) :
    cursorInv L H (runCursor L H cmds s) := by
  induction cmds generalizing s with
  | nil => exact hs
  | cons c cs ih =>
    exact ih (handle_cursor L H c s)
      (handle_cursor_inv L H c s hH (le_trans hH hHL) hs (fun _ => hHL))

/-- On a list strictly shorter than the viewport, `pageDown` drives the
scroll offset to the negative value `L - H`. -/
theorem pageDown_offset_negative (L H : Int) (s : CursorState)
    (hL : 1 ≤ L) (hLH : L < H) (hs : cursorInv L H s) :
    (handle_cursor L H CursorCmd.pageDown s).off = L - H ∧ L - H < 0 := by
  obtain ⟨h1, h2, h3, h4⟩ := hs
  simp only [handle_cursor]
  (try simp)
  omega

/-- Counterexample to C2 as stated: from the valid cursor state (0, 0) on a
one-entry list with a two-row viewport, `pageDown` sets the scroll offset
to -1; and on a seven-entry list with a seven-row viewport the jump of a
successful search sets the offset to 1, above `max 0 (7 - 7) = 0` — so the
invariant is not preserved by every transition. -/
theorem cursor_invariant_counterexample :
    cursorInv 1 2 { idx := 0, off := 0 } ∧
    (handle_cursor 1 2 CursorCmd.pageDown { idx := 0, off := 0 }).off = -1 ∧
    cursorInv 7 7 { idx := 0, off := 0 } ∧
    search_jump steamCat "steam" { idx := 0, off := 0 } =
      { idx := 6, off := 1 } ∧
    ¬ cursorInv 7 7 { idx := 6, off := 1 } := by
  decide

/-- Claim C2 as amended: from a valid cursor state on a non-empty list with
a positive viewport, every navigation command keeps the selection index
within `[0, length)`; each command other than `pageDown` — and `pageDown`
too when the viewport fits the list — re-establishes the full invariant
`0 ≤ scrollOffset ≤ max(0, length − viewportHeight)`, hence whole command
sequences preserve it when `viewportHeight ≤ length`; but when the list is
strictly shorter than the viewport, `pageDown` sets the scroll offset to
the negative value `length − viewportHeight` (and the search jump can
exceed the upper bound, as the counterexample shows). -/
theorem cursor_invariant_amended (L H : Int) (c : CursorCmd)
    (cmds : List CursorCmd) (s : CursorState)
    (hH : 1 ≤ H) (hL : 1 ≤ L) (hs : cursorInv L H s) :
    (0 ≤ (handle_cursor L H c s).idx ∧ (handle_cursor L H c s).idx < L) ∧
    ((c = CursorCmd.pageDown → H ≤ L) →
      cursorInv L H (handle_cursor L H c s)) ∧
    (H ≤ L → cursorInv L H (runCursor L H cmds s)) ∧
    (L < H →
      (handle_cursor L H CursorCmd.pageDown s).off = L - H ∧ L - H < 0) :=
  ⟨handle_cursor_idx L H c s hH hL hs,
   fun hc => handle_cursor_inv L H c s hH hL hs hc,
   fun hHL => runCursor_inv L H cmds s hH hHL hs,
   fun hLH => pageDown_offset_negative L H s hL hLH hs⟩

/-- Witness for the amended C2 at a concrete list, viewport and command
sequence. -/
theorem cursor_invariant_amended_witness :
    ((1 : Int) ≤ 2 ∧ (1 : Int) ≤ 3 ∧ cursorInv 3 2 { idx := 0, off := 0 }) ∧
    cursorInv 3 2
      (runCursor 3 2 [CursorCmd.moveDown, CursorCmd.pageDown]
        { idx := 0, off := 0 }) :=
  ⟨⟨by decide, by decide, by decide⟩,
   (cursor_invariant_amended 3 2 CursorCmd.moveDown
     [CursorCmd.moveDown, CursorCmd.pageDown] { idx := 0, off := 0 }
     (by decide) (by decide) (by decide)).2.2.1 (by decide)⟩
